import Mathlib

/-
Shallow embedding of the `sqlx-core-next` crate (interfaces and shared types of
the SQLx core), used to check the crate's specification against its code.

Each definition is translated from the corresponding Rust item in the crate's
sources; the file name and line range are noted in its doc comment.  Rust
machine details that the embedded operations do not observe (allocation,
lifetimes, borrows) are modelled as plain functional data; where the crate's
sources omit a definition that a claim depends on, the model is marked
`Modelled from the spec:` in its doc comment.
-/

set_option autoImplicit false

namespace Sqlx

/-! ## Model of std containers used by `arguments.rs`

`Arguments` stores positional arguments in a `Vec` and named arguments in a
`HashMap`.  The models keep exactly the structure the crate observes: a `Vec`
is its list of elements together with its reserved capacity (the capacity is
carried so that `with_capacity` is distinguishable from `new` at the
representation level); a `HashMap` is modelled as an association list holding
at most one entry per key, with insert-overwrites semantics. -/

/-- Model of `std::vec::Vec`: the element list plus the reserved capacity.
Only `data` is observable through `len`/`is_empty`; the exact growth policy of
`push` is irrelevant to those observations and is abstracted. -/
structure Vec (α : Type) where
  data : List α
  cap : Nat

/-- Model of `Vec::new`: empty, no reserved capacity. -/
def Vec.new {α : Type} : Vec α :=
  ⟨[], 0⟩

/-- Model of `Vec::with_capacity`: empty, with reserved capacity. -/
def Vec.with_capacity {α : Type} (capacity : Nat) : Vec α :=
  ⟨[], capacity⟩

/-- Model of `Vec::len`. -/
def Vec.len {α : Type} (v : Vec α) : Nat :=
  v.data.length

/-- Model of `Vec::is_empty`. -/
def Vec.is_empty {α : Type} (v : Vec α) : Bool :=
  v.data.isEmpty

/-- Model of `Vec::push`: appends the element; capacity grows as needed. -/
def Vec.push {α : Type} (v : Vec α) (x : α) : Vec α :=
  ⟨v.data ++ [x], max v.cap (v.data.length + 1)⟩

/-- Model of `std::collections::HashMap` with `String` keys as used in
`arguments.rs` (the `Cow` key is modelled as a plain `String`): an association
list holding at most one entry per key when built through `insert`. -/
structure HMap (β : Type) where
  entries : List (String × β)

/-- Model of `HashMap::default`: the empty map. -/
def HMap.empty {β : Type} : HMap β :=
  ⟨[]⟩

/-- Model of `HashMap::insert`: overwrites the entry when the key is present,
otherwise adds a new entry. -/
def HMap.insert {β : Type} (m : HMap β) (k : String) (v : β) : HMap β :=
  if k ∈ m.entries.map Prod.fst then
    ⟨m.entries.map fun p => if p.1 = k then (k, v) else p⟩
  else
    ⟨(k, v) :: m.entries⟩

/-- Model of `HashMap::len`: the number of entries. -/
def HMap.len {β : Type} (m : HMap β) : Nat :=
  m.entries.length

/-- Model of `HashMap::is_empty`. -/
def HMap.is_empty {β : Type} (m : HMap β) : Bool :=
  m.entries.isEmpty

/-- Keys of the modelled map, in entry order. -/
def HMap.keys {β : Type} (m : HMap β) : List String :=
  m.entries.map Prod.fst

/-- Model of `HashMap::get`: the value stored at `k`, if any. -/
def HMap.get {β : Type} (m : HMap β) (k : String) : Option β :=
  m.entries.lookup k

/-! ## `arguments.rs` -/

/-- `Argument` (arguments.rs lines 52-54): a type-erased borrowed value.  The
source currently holds a placeholder `value: &'a ()`, modelled as `Unit`. -/
structure Argument where
  value : Unit

/-- `Arguments` (arguments.rs lines 11-14): positional arguments in call
order plus named arguments keyed by name. -/
structure Arguments where
  positional : Vec Argument
  named : HMap Argument

/-- `impl Default for Arguments` (arguments.rs lines 16-23). -/
def Arguments.default : Arguments :=
  ⟨Vec.new, HMap.empty⟩

/-- `Arguments::new` (arguments.rs lines 27-29): delegates to `Default`. -/
def Arguments.new : Arguments :=
  Arguments.default

/-- `Arguments::with_capacity` (arguments.rs lines 32-37): reserved capacity
for positional arguments, default (empty) named map. -/
def Arguments.with_capacity (capacity : Nat) : Arguments :=
  ⟨Vec.with_capacity capacity, HMap.empty⟩

/-- `Arguments::len` (arguments.rs lines 40-42): positional count plus named
count. -/
def Arguments.len (a : Arguments) : Nat :=
  a.positional.len + a.named.len

/-- `Arguments::is_empty` (arguments.rs lines 45-47). -/
def Arguments.is_empty (a : Arguments) : Bool :=
  a.positional.is_empty && a.named.is_empty

/-- Modelled from the spec: arguments.rs declares the container but no append
operation is present in the sources.  Per the spec, callers append positional
values in call order; this pushes one positional argument. -/
def Arguments.add (a : Arguments) (arg : Argument) : Arguments :=
  { a with positional := a.positional.push arg }

/-- Modelled from the spec: named values are appended keyed by name, and a
duplicate key overwrites the previous entry. -/
def Arguments.add_named (a : Arguments) (name : String) (arg : Argument) : Arguments :=
  { a with named := a.named.insert name arg }

/-- Appends a list of positional entries followed by a list of named entries,
in order. -/
def Arguments.append_all (a : Arguments) (ps : List Argument)
    (ns : List (String × Argument)) : Arguments :=
  ns.foldl (fun a p => a.add_named p.1 p.2) (ps.foldl Arguments.add a)

/-! ## `execute.rs` -/

/-- `Execute` (execute.rs lines 44-67): a SQL command.  `sql` returns the
command text; `arguments` defaults to absent (`None`, execute.rs lines 55-57),
meaning a simple unprepared command; `persistent` defaults to `false`
(execute.rs lines 64-66). -/
class Execute (α : Type) where
  sql : α → String
  arguments : α → Option Arguments := fun _ => none
  persistent : α → Bool := fun _ => false

/-- Model of a Rust shared reference `&E`, used for the `impl Execute for &E`
and `impl Type for &T` wrappers. -/
structure Ref (α : Type) where
  deref : α

/-- Model of the borrowed text form `&'q str`, kept as a type distinct from
the owned `String` so that both `Execute` impls of execute.rs exist
separately. -/
structure StrRef where
  ref : String

/-- `impl Execute for &str` (execute.rs lines 69-73): only `sql` is given;
`arguments` and `persistent` keep their defaults. -/
instance instExecuteStrRef : Execute StrRef where
  sql e := e.ref

/-- `impl Execute for String` (execute.rs lines 75-79). -/
instance instExecuteString : Execute String where
  sql e := e

/-- `impl Execute for (&str, Arguments)` (execute.rs lines 81-89):
`arguments` is overridden to present. -/
instance instExecuteStrRefArgs : Execute (StrRef × Arguments) where
  sql e := e.1.ref
  arguments e := some e.2

/-- `impl Execute for (String, Arguments)` (execute.rs lines 91-99). -/
instance instExecuteStringArgs : Execute (String × Arguments) where
  sql e := e.1
  arguments e := some e.2

/-- `impl Execute for &E where E: Execute` (execute.rs lines 101-116): all
three methods forward to the referenced value. -/
instance instExecuteRef (α : Type) [Execute α] : Execute (Ref α) where
  sql e := Execute.sql e.deref
  arguments e := Execute.arguments e.deref
  persistent e := Execute.persistent e.deref

/-! ## `database.rs`, the type-info contract, `type.rs` and `to_value.rs`

lib.rs declares `mod type_info` and type.rs/to_value.rs call `ty.id()` and
`ty.is_unknown()` on `DB::TypeInfo`, but type_info.rs itself is not among the
sources.  The `DB` record below therefore bundles, for one database driver,
the associated types of `Database`/`HasTypeId` (database.rs lines 12-28) with
the type-info interface reconstructed from its call sites and the spec:
`TypeId` is an equality-comparable token naming a SQL type (`deq`), and a
runtime `TypeInfo` reports an identity (`id`) and whether it is the unknown
marker (`is_unknown`).  (`Modelled from the spec:` applies to the `id` /
`is_unknown` interface only.) -/

/-- A database driver's associated types: `Database::TypeInfo` together with
`HasTypeId::TypeId` (database.rs), plus the type-info interface used by
type.rs and to_value.rs (modelled from the spec, see above). -/
structure DB where
  TypeId : Type
  deq : DecidableEq TypeId
  TypeInfo : Type
  id : TypeInfo → TypeId
  is_unknown : TypeInfo → Bool

/-- Default body of `Type::compatible` (type.rs lines 16-18): the reported
identity of `ty` equals the value type's `type_id()`. -/
def Type'.defaultCompatible (db : DB) (tid : db.TypeId) (ty : db.TypeInfo) : Bool :=
  @decide (db.id ty = tid) (db.deq (db.id ty) tid)

/-- `Type` (type.rs lines 4-19; `Type` is a reserved word in Lean, hence the
prime): a Rust type supported for database `db`.  `compatible` defaults to
identity comparison against `type_id`. -/
class Type' (db : DB) (α : Type) where
  type_id : db.TypeId
  compatible : db.TypeInfo → Bool := Type'.defaultCompatible db type_id

/-- `impl Type for &T` (type.rs lines 22-30): `type_id` and `compatible`
forward unchanged to the wrapped type. -/
instance instTypeRef (db : DB) (α : Type) [Type' db α] : Type' db (Ref α) where
  type_id := @Type'.type_id db α _
  compatible := @Type'.compatible db α _

/-- `impl Type for Option<T>` (type.rs lines 33-41): `type_id` and
`compatible` forward unchanged to the wrapped type. -/
instance instTypeOption (db : DB) (α : Type) [Type' db α] : Type' db (Option α) where
  type_id := @Type'.type_id db α _
  compatible := @Type'.compatible db α _

/-- Default body of `ToValue::accepts` (to_value.rs lines 34-38), abstracted
over the implementation's `Self::compatible` (which overrides may replace):
true when `ty` is the unknown marker, otherwise whatever `compatible`
returns. -/
def ToValue.defaultAccepts (db : DB) (compatible : db.TypeInfo → Bool)
    (ty : db.TypeInfo) : Bool :=
  db.is_unknown ty || compatible ty

/-- `ToValue` (to_value.rs lines 11-50), restricted to its pure interface:
`accepts` defaults to the body above instantiated with the implementation's
`compatible`.  (`to_value` itself writes into an opaque per-backend output
buffer and is outside the claims checked here.) -/
class ToValue (db : DB) (α : Type) extends Type' db α where
  accepts : α → db.TypeInfo → Bool := fun _ ty => ToValue.defaultAccepts db compatible ty

/-! ## `error.rs` -/

/-- `Error` (error.rs lines 6-9): the crate's error enum, declared
`non_exhaustive` with zero variants, hence uninhabited.  Note that
ssl_mode.rs lines 51-53 construct `crate::Error::Configuration(..)`, a
variant this declaration does not contain; that constructed value is modelled
separately as `SslModeError` below, from its construction site. -/
inductive Error

/-- `Result<T>` (error.rs line 4): `std::result::Result<T, Error>`. -/
abbrev Result (α : Type) : Type :=
  Except Error α

/-! ## `options/ssl_mode.rs` -/

/-- `SslMode` (ssl_mode.rs lines 5-27): the desired security state of the
connection. -/
inductive SslMode
  | Disable
  | Prefer
  | Require
  | VerifyCa
  | VerifyIdentity
deriving DecidableEq, Repr

/-- `impl Default for SslMode` (ssl_mode.rs lines 29-33). -/
def SslMode.default : SslMode :=
  SslMode.Prefer

/-- The error value constructed by `SslMode::from_str` (ssl_mode.rs lines
51-53): `crate::Error::Configuration` carrying the formatted message.
error.rs declares `Error` with zero variants and in particular no
`Configuration` variant (see `Error`), so the variant is modelled here, as a
standalone type, from its construction site. -/
inductive SslModeError
  | Configuration (msg : String)
deriving DecidableEq, Repr

/-- Model of `u8::to_ascii_lowercase` on one character: ASCII uppercase maps
to lowercase, everything else is untouched. -/
def asciiLower (c : Char) : Char :=
  if 'A' ≤ c ∧ c ≤ 'Z' then Char.ofNat (c.toNat + 32) else c

/-- Model of `str::to_ascii_lowercase` (ssl_mode.rs line 39): ASCII
lowercasing of every character. -/
def toAsciiLowercase (s : String) : String :=
  String.mk (s.data.map asciiLower)

/-- One character of Rust `Debug` string formatting: quote, backslash and the
common control characters are backslash-escaped, anything else passes
through.  (Rust escapes the remaining control characters as hexadecimal
escapes; those are not modelled, which only coarsens the formatting of such
characters and keeps the encoding decodable.) -/
def escapeDebugChar (c : Char) : List Char :=
  if c = '"' then ['\\', '"']
  else if c = '\\' then ['\\', '\\']
  else if c = '\n' then ['\\', 'n']
  else if c = '\t' then ['\\', 't']
  else if c = '\r' then ['\\', 'r']
  else if c = '\x00' then ['\\', '0']
  else [c]

/-- Rust `Debug` escaping of a character list. -/
def escapeDebug : List Char → List Char
  | [] => []
  | c :: cs => escapeDebugChar c ++ escapeDebug cs

/-- Model of the Rust `Debug` format specifier applied to a string (the
formatting used by ssl_mode.rs line 52): the string, escaped, between
quotes. -/
def rustDebugStr (s : String) : String :=
  "\"" ++ String.mk (escapeDebug s.data) ++ "\""

/-- The message built at ssl_mode.rs line 52 for an unrecognized input. -/
def cfgMsg (s : String) : String :=
  "unknown value " ++ rustDebugStr s ++ " for `ssl_mode`"

/-- `SslMode::from_str` (ssl_mode.rs lines 38-56): the input is ASCII
lowercased and matched against the fixed aliases; anything else produces the
`Configuration` error with the formatted message (`cfgMsg` expands the
format string of line 52). -/
def SslMode.from_str (s : String) : Except SslModeError SslMode :=
  match toAsciiLowercase s with
  | "disable" | "allow" => Except.ok SslMode.Disable
  | "prefer" => Except.ok SslMode.Prefer
  | "require" => Except.ok SslMode.Require
  | "verify-ca" | "verify_ca" => Except.ok SslMode.VerifyCa
  | "verify-full" | "verify-identity" | "verify_full" | "verify_identity" =>
    Except.ok SslMode.VerifyIdentity
  | _ => Except.error (SslModeError.Configuration (cfgMsg s))

/-- The alias table of ssl_mode.rs lines 42-48, as lowercased key / value
pairs. -/
def aliasTable : List (String × SslMode) :=
  [("disable", SslMode.Disable), ("allow", SslMode.Disable),
   ("prefer", SslMode.Prefer), ("require", SslMode.Require),
   ("verify-ca", SslMode.VerifyCa), ("verify_ca", SslMode.VerifyCa),
   ("verify-full", SslMode.VerifyIdentity), ("verify-identity", SslMode.VerifyIdentity),
   ("verify_full", SslMode.VerifyIdentity), ("verify_identity", SslMode.VerifyIdentity)]

/-- Decodes one escaped character of `escapeDebugChar`'s image. -/
def unescChar (x : Char) : Option Char :=
  if x = '"' then some '"'
  else if x = '\\' then some '\\'
  else if x = 'n' then some '\n'
  else if x = 't' then some '\t'
  else if x = 'r' then some '\r'
  else if x = '0' then some '\x00'
  else none

/-- Decoder for `escapeDebug`: a backslash starts a two-character escape,
anything else stands for itself. -/
def unescapeDebug : List Char → Option (List Char)
  | [] => some []
  | c :: rest =>
    if c = '\\' then
      match rest with
      | [] => none
      | x :: rest2 =>
        match unescChar x with
        | none => none
        | some d => (unescapeDebug rest2).map fun l => d :: l
    else
      (unescapeDebug rest).map fun l => c :: l

/-- Recovers the offending input from the message of the `Configuration`
error produced by `SslMode::from_str`: strips the fixed message prefix and
suffix and undoes the `Debug` escaping.  Its existence formalizes that the
error message retains the original input string. -/
def recoverInput (msg : String) : Option String :=
  (unescapeDebug (((msg.data.drop "unknown value \"".data.length).reverse.drop
    "\" for `ssl_mode`".data.length).reverse)).map String.mk

/-! ## Concrete driver used to exercise the generic theorems -/

/-- A tiny concrete database driver: type identities are natural numbers and
a runtime type info is an identity paired with its unknown flag.  Used only
to instantiate the generic theorems on concrete inputs. -/
abbrev natDB : DB where
  TypeId := Nat
  deq := inferInstance
  TypeInfo := Nat × Bool
  id := Prod.fst
  is_unknown := Prod.snd

/-- A `Type'` instance for `Unit` over `natDB`, with the default
`compatible`. -/
instance instTypeNatDBUnit : Type' natDB Unit where
  type_id := (0 : Nat)

/-! ## Theorems -/

/-- C9: The default-constructed SslMode (`SslMode::default()`) equals
`SslMode::Prefer` (ssl_mode.rs lines 29-33). -/
theorem ssl_mode_default_is_prefer : SslMode.default = SslMode.Prefer :=
  rfl

/-- C10: The crate's `Error` enum declares zero variants and is uninhabited:
no value of type `Error` exists (so in particular no `Configuration` value of
it can be constructed), and every `crate::Result` value that exists is
`Ok`. -/
theorem error_enum_uninhabited (α : Type) (r : Result α) :
    (∀ _e : Error, False) ∧ ∃ a : α, r = Except.ok a := by
  refine ⟨nofun, ?_⟩
  cases r with
  | ok a => exact ⟨a, rfl⟩
  | error err => exact nomatch err

/-- C5: `persistent()` returns false on every built-in Execute adapter:
borrowed text, owned text, and both (text, Arguments) pair forms (execute.rs
lines 64-66 and 69-99, none of which overrides the default). -/
theorem execute_persistent_default_false (t : String) (a : Arguments) :
    Execute.persistent (StrRef.mk t) = false ∧
    Execute.persistent t = false ∧
    Execute.persistent (StrRef.mk t, a) = false ∧
    Execute.persistent (t, a) = false :=
  ⟨rfl, rfl, rfl, rfl⟩

/-- C6: `Arguments::with_capacity(k)` is observably identical to
`Arguments::new()` through `len` and `is_empty`: both report length 0 and
emptiness, for every capacity `k` (arguments.rs lines 32-37). -/
theorem with_capacity_observably_new (k : Nat) :
    (Arguments.with_capacity k).len = Arguments.new.len ∧
    (Arguments.with_capacity k).is_empty = Arguments.new.is_empty ∧
    (Arguments.with_capacity k).len = 0 ∧
    (Arguments.with_capacity k).is_empty = true :=
  ⟨rfl, rfl, rfl, rfl⟩

/-- C7: A reference to any Execute value is itself an Execute value whose
`sql`, `arguments` and `persistent` return exactly what the referenced
value's methods return (execute.rs lines 101-116). -/
theorem ref_execute_forwards (α : Type) [Execute α] (e : α) :
    Execute.sql (Ref.mk e) = Execute.sql e ∧
    Execute.arguments (Ref.mk e) = Execute.arguments e ∧
    Execute.persistent (Ref.mk e) = Execute.persistent e :=
  ⟨rfl, rfl, rfl⟩

/-- C8: The reference wrapper and the optional wrapper forward `type_id` and
`compatible` unchanged to the wrapped type (type.rs lines 22-41). -/
theorem type_wrappers_forward (db : DB) (α : Type) [inst : Type' db α]
    (ty : db.TypeInfo) :
    @Type'.type_id db (Ref α) (instTypeRef db α) = @Type'.type_id db α inst ∧
    @Type'.compatible db (Ref α) (instTypeRef db α) ty
      = @Type'.compatible db α inst ty ∧
    @Type'.type_id db (Option α) (instTypeOption db α) = @Type'.type_id db α inst ∧
    @Type'.compatible db (Option α) (instTypeOption db α) ty
      = @Type'.compatible db α inst ty :=
  ⟨rfl, rfl, rfl, rfl⟩

/-- C3: The default `accepts` returns true whenever the runtime type reports
itself unknown, regardless of what `compatible` would return, and otherwise
equals `compatible`; and the default `compatible` is true exactly when the
reported identity equals the value type's `type_id` (to_value.rs lines 34-38,
type.rs lines 16-18). -/
theorem accepts_compatible_defaults (db : DB) (compat : db.TypeInfo → Bool)
    (ty : db.TypeInfo) (tid : db.TypeId) :
    (db.is_unknown ty = true → ToValue.defaultAccepts db compat ty = true) ∧
    (db.is_unknown ty = false → ToValue.defaultAccepts db compat ty = compat ty) ∧
    (Type'.defaultCompatible db tid ty = true ↔ db.id ty = tid) := by
  refine ⟨fun h => ?_, fun h => ?_, ?_⟩
  · simp [ToValue.defaultAccepts, h]
  · simp [ToValue.defaultAccepts, h]
  · exact @decide_eq_true_iff _ (db.deq (db.id ty) tid)

/-- Witness for C3 at the concrete driver `natDB`: an unknown runtime type is
accepted even under an always-false `compatible`; a known one defers to
`compatible`; and the default `compatible` agrees with identity equality. -/
theorem accepts_compatible_defaults_witness :
    ToValue.defaultAccepts natDB (fun _ => false) ((0 : Nat), true) = true ∧
    ToValue.defaultAccepts natDB (fun _ => true) ((0 : Nat), false)
      = (fun _ => true) ((0 : Nat), false) ∧
    (Type'.defaultCompatible natDB (0 : Nat) ((0 : Nat), true) = true ↔
      natDB.id ((0 : Nat), true) = (0 : Nat)) :=
  ⟨(accepts_compatible_defaults natDB (fun _ => false) ((0 : Nat), true) 0).1 rfl,
   (accepts_compatible_defaults natDB (fun _ => true) ((0 : Nat), false) 0).2.1 rfl,
   (accepts_compatible_defaults natDB (fun _ => true) ((0 : Nat), true) 0).2.2⟩

/-- C2: An Execute value built from a (text, Arguments) pair with no
arguments returns a present-but-empty Arguments from `arguments()`, in either
text ownership form, whereas a bare-text Execute value returns absent; the
two are distinct observable states (execute.rs lines 55-57 and 69-99). -/
theorem execute_arguments_three_states (t : String) (a : Arguments)
    (h : a.is_empty = true) :
    (∃ b, Execute.arguments (StrRef.mk t, a) = some b ∧ b.is_empty = true) ∧
    (∃ b, Execute.arguments (t, a) = some b ∧ b.is_empty = true) ∧
    Execute.arguments (StrRef.mk t) = (none : Option Arguments) ∧
    Execute.arguments t = (none : Option Arguments) ∧
    Execute.arguments (t, a) ≠ Execute.arguments t := by
  refine ⟨⟨a, rfl, h⟩, ⟨a, rfl, h⟩, rfl, rfl, ?_⟩
  show some a ≠ none
  exact Option.some_ne_none a

/-- Witness for C2 at concrete inputs: the prepared, zero-argument command
and the bare-text command are observably distinct. -/
theorem execute_arguments_three_states_witness :
    Execute.arguments ("SELECT 1", Arguments.new) ≠ Execute.arguments "SELECT 1" :=
  (execute_arguments_three_states "SELECT 1" Arguments.new rfl).2.2.2.2

/-! ### Arguments length lemmas (for C4) -/

/-- Pushing one positional argument grows the positional count by one. -/
lemma add_positional_len (a : Arguments) (p : Argument) :
    (a.add p).positional.len = a.positional.len + 1 := by
  simp [Arguments.add, Vec.push, Vec.len]

/-- Inserting a fresh key grows the map by one entry. -/
lemma HMap.insert_len_of_not_mem {β : Type} (m : HMap β) (k : String) (v : β)
    (h : k ∉ m.entries.map Prod.fst) :
    (m.insert k v).len = m.len + 1 := by
  simp [HMap.insert, HMap.len, h]

/-- Inserting a fresh key prepends it to the key list. -/
lemma HMap.keys_insert_of_not_mem {β : Type} (m : HMap β) (k : String) (v : β)
    (h : k ∉ m.entries.map Prod.fst) :
    (m.insert k v).entries.map Prod.fst = k :: m.entries.map Prod.fst := by
  simp [HMap.insert, h]

/-- Inserting a present key overwrites in place: the entry count is
unchanged. -/
lemma HMap.insert_len_of_mem {β : Type} (m : HMap β) (k : String) (v : β)
    (h : k ∈ m.entries.map Prod.fst) :
    (m.insert k v).len = m.len := by
  simp [HMap.insert, HMap.len, h]

/-- Inserting a present key keeps the key list unchanged. -/
lemma HMap.keys_insert_of_mem {β : Type} (m : HMap β) (k : String) (v : β)
    (h : k ∈ m.entries.map Prod.fst) :
    (m.insert k v).entries.map Prod.fst = m.entries.map Prod.fst := by
  simp only [HMap.insert, if_pos h, List.map_map]
  apply List.map_congr_left
  intro p _
  by_cases hp : p.1 = k <;> simp [hp]

/-- Looking up `k` after replacing every `k`-keyed entry by `(k, v)` finds
`v`, provided `k` occurs at all. -/
lemma lookup_map_replace {β : Type} (l : List (String × β)) (k : String) (v : β)
    (h : k ∈ l.map Prod.fst) :
    (l.map fun p => if p.1 = k then (k, v) else p).lookup k = some v := by
  induction l with
  | nil => simp at h
  | cons p l ih =>
    rw [List.map_cons]
    by_cases hp : p.1 = k
    · subst hp
      rw [if_pos rfl]
      simp [List.lookup]
    · have h' : k ∈ l.map Prod.fst := by
        rw [List.map_cons, List.mem_cons] at h
        exact h.resolve_left fun hk => hp hk.symm
      rw [if_neg hp]
      have hne : (k == p.1) = false := beq_eq_false_iff_ne.mpr (Ne.symm hp)
      simp [List.lookup, hne, ih h']

/-- Inserting always makes `k` retrievable with the inserted value: a
duplicate key overwrites the previous entry. -/
lemma HMap.get_insert_self {β : Type} (m : HMap β) (k : String) (v : β) :
    (m.insert k v).get k = some v := by
  unfold HMap.insert HMap.get
  split_ifs with h
  · exact lookup_map_replace m.entries k v h
  · simp [List.lookup]

/-- After an insert, the key is among the keys. -/
lemma HMap.mem_keys_insert {β : Type} (m : HMap β) (k : String) (v : β) :
    k ∈ (m.insert k v).entries.map Prod.fst := by
  by_cases h : k ∈ m.entries.map Prod.fst
  · rw [HMap.keys_insert_of_mem m k v h]; exact h
  · rw [HMap.keys_insert_of_not_mem m k v h]; exact List.mem_cons_self k _

/-- Folding positional appends: the positional count grows by the number of
appended entries and the named map is untouched. -/
lemma foldl_add_spec (a : Arguments) (ps : List Argument) :
    (ps.foldl Arguments.add a).positional.len = a.positional.len + ps.length ∧
    (ps.foldl Arguments.add a).named = a.named := by
  induction ps generalizing a with
  | nil => exact ⟨rfl, rfl⟩
  | cons p ps ih =>
    refine ⟨?_, ?_⟩
    · rw [List.foldl_cons, (ih (a.add p)).1, add_positional_len, List.length_cons]
      omega
    · rw [List.foldl_cons, (ih (a.add p)).2]
      rfl

/-- Folding named appends at the Arguments level projects to folding inserts
at the map level, leaving the positional entries untouched. -/
lemma foldl_add_named_proj (ns : List (String × Argument)) (a : Arguments) :
    (ns.foldl (fun a p => a.add_named p.1 p.2) a).positional = a.positional ∧
    (ns.foldl (fun a p => a.add_named p.1 p.2) a).named
      = ns.foldl (fun m p => m.insert p.1 p.2) a.named := by
  induction ns generalizing a with
  | nil => exact ⟨rfl, rfl⟩
  | cons p ns ih => exact (ih (a.add_named p.1 p.2))

/-- Folding inserts of pairwise-distinct fresh keys grows the map by the
number of inserted entries. -/
lemma foldl_insert_len (ns : List (String × Argument)) (m : HMap Argument)
    (hnd : (ns.map Prod.fst).Nodup)
    (hdis : ∀ p ∈ ns, p.1 ∉ m.entries.map Prod.fst) :
    (ns.foldl (fun m p => m.insert p.1 p.2) m).len = m.len + ns.length := by
  induction ns generalizing m with
  | nil => simp
  | cons p ns ih =>
    have hp : p.1 ∉ m.entries.map Prod.fst := hdis p (List.mem_cons_self p ns)
    have hnd' : (ns.map Prod.fst).Nodup := (List.nodup_cons.mp (by simpa using hnd)).2
    have hhead : p.1 ∉ ns.map Prod.fst := (List.nodup_cons.mp (by simpa using hnd)).1
    have hdis' : ∀ q ∈ ns, q.1 ∉ (m.insert p.1 p.2).entries.map Prod.fst := by
      intro q hq
      rw [HMap.keys_insert_of_not_mem m p.1 p.2 hp]
      intro hmem
      rcases List.mem_cons.mp hmem with h | h
      · exact hhead (h ▸ List.mem_map_of_mem Prod.fst hq)
      · exact hdis q (List.mem_cons_of_mem p hq) h
    rw [List.foldl_cons, ih (m.insert p.1 p.2) hnd' hdis',
      HMap.insert_len_of_not_mem m p.1 p.2 hp, List.length_cons]
    omega

/-- C4: A new Arguments container has length 0 and is empty; appending P
positional entries and N named entries with pairwise-distinct names yields
length P + N; a duplicate name overwrites (same length, new value); and the
length always equals the positional count plus the named count (arguments.rs
lines 25-48; the append operations are modelled from the spec). -/
theorem arguments_len_spec (ps : List Argument) (ns : List (String × Argument))
    (hnd : (ns.map Prod.fst).Nodup) :
    Arguments.new.len = 0 ∧ Arguments.new.is_empty = true ∧
    (Arguments.new.append_all ps ns).len = ps.length + ns.length ∧
    (∀ (a : Arguments) (k : String) (v w : Argument),
      ((a.add_named k v).add_named k w).len = (a.add_named k v).len ∧
      ((a.add_named k v).add_named k w).named.get k = some w) ∧
    (∀ a : Arguments, a.len = a.positional.len + a.named.len) := by
  refine ⟨rfl, rfl, ?_, ?_, fun a => rfl⟩
  · unfold Arguments.append_all Arguments.len
    rw [(foldl_add_named_proj ns (ps.foldl Arguments.add Arguments.new)).1,
      (foldl_add_named_proj ns (ps.foldl Arguments.add Arguments.new)).2,
      (foldl_add_spec Arguments.new ps).1,
      (foldl_add_spec Arguments.new ps).2]
    rw [foldl_insert_len ns Arguments.new.named hnd
      (by intro p _; simp [Arguments.new, Arguments.default, HMap.empty])]
    simp [Arguments.new, Arguments.default, Vec.new, HMap.empty, Vec.len, HMap.len]
  · intro a k v w
    refine ⟨?_, HMap.get_insert_self (a.named.insert k v) k w⟩
    show (a.add_named k v).positional.len + ((a.named.insert k v).insert k w).len
      = (a.add_named k v).positional.len + (a.named.insert k v).len
    rw [HMap.insert_len_of_mem (a.named.insert k v) k w
      (HMap.mem_keys_insert a.named k v)]

/-- Witness for C4: two positional and one named entry give length 3. -/
theorem arguments_len_spec_witness :
    (Arguments.new.append_all [Argument.mk (), Argument.mk ()]
        [("a", Argument.mk ())]).len
      = [Argument.mk (), Argument.mk ()].length + [("a", Argument.mk ())].length :=
  (arguments_len_spec [Argument.mk (), Argument.mk ()] [("a", Argument.mk ())]
    (by decide)).2.2.1

/-! ### SslMode parsing lemmas (for C1) -/

/-- Undoing the escaping recovers the original characters. -/
lemma unescape_escape (cs : List Char) :
    unescapeDebug (escapeDebug cs) = some cs := by
  induction cs with
  | nil => rfl
  | cons c cs ih =>
    show unescapeDebug (escapeDebugChar c ++ escapeDebug cs) = some (c :: cs)
    unfold escapeDebugChar
    split_ifs with h1 h2 h3 h4 h5 h6
    · subst h1; simp [unescapeDebug, unescChar, ih]
    · subst h2; simp [unescapeDebug, unescChar, ih]
    · subst h3; simp [unescapeDebug, unescChar, ih]
    · subst h4; simp [unescapeDebug, unescChar, ih]
    · subst h5; simp [unescapeDebug, unescChar, ih]
    · subst h6; simp [unescapeDebug, unescChar, ih]
    · show unescapeDebug (c :: escapeDebug cs) = some (c :: cs)
      unfold unescapeDebug
      rw [if_neg h2, ih]
      rfl

/-- Dropping a fixed prefix and a fixed suffix around a middle list returns
the middle list. -/
lemma strip_around (pre suf e : List Char) :
    (((pre ++ (e ++ suf)).drop pre.length).reverse.drop suf.length).reverse = e := by
  rw [List.drop_left, List.reverse_append, ← List.length_reverse suf,
    List.drop_left, List.reverse_reverse]

/-- The character data of the unknown-value message decomposes as prefix,
escaped input, suffix. -/
lemma cfgMsg_data (s : String) :
    (cfgMsg s).data
      = "unknown value \"".data ++ (escapeDebug s.data ++ "\" for `ssl_mode`".data) := by
  have h1 : "unknown value \"".data = "unknown value ".data ++ "\"".data := by decide
  have h2 : "\" for `ssl_mode`".data = "\"".data ++ " for `ssl_mode`".data := by decide
  simp [cfgMsg, rustDebugStr, String.data_append, h1, h2]

/-- The offending input is recoverable from the Configuration message: the
message retains the original string. -/
lemma recover_cfgMsg (s : String) : recoverInput (cfgMsg s) = some s := by
  unfold recoverInput
  rw [cfgMsg_data, strip_around, unescape_escape]
  rfl

/-- `SslMode::from_str` agrees everywhere with lookup in the alias table,
with the Configuration error outside the table. -/
lemma from_str_eq_lookup (s : String) :
    SslMode.from_str s
      = match aliasTable.lookup (toAsciiLowercase s) with
        | some m => Except.ok m
        | none => Except.error (SslModeError.Configuration (cfgMsg s)) := by
  unfold SslMode.from_str
  split
  · next heq => rw [heq]; rfl
  · next heq => rw [heq]; rfl
  · next heq => rw [heq]; rfl
  · next heq => rw [heq]; rfl
  · next heq => rw [heq]; rfl
  · next heq => rw [heq]; rfl
  · next heq => rw [heq]; rfl
  · next heq => rw [heq]; rfl
  · next heq => rw [heq]; rfl
  · next heq => rw [heq]; rfl
  · next h1 h2 h3 h4 h5 h6 h7 h8 h9 h10 =>
    have e1 : (toAsciiLowercase s == "disable") = false := beq_eq_false_iff_ne.mpr h1
    have e2 : (toAsciiLowercase s == "allow") = false := beq_eq_false_iff_ne.mpr h2
    have e3 : (toAsciiLowercase s == "prefer") = false := beq_eq_false_iff_ne.mpr h3
    have e4 : (toAsciiLowercase s == "require") = false := beq_eq_false_iff_ne.mpr h4
    have e5 : (toAsciiLowercase s == "verify-ca") = false := beq_eq_false_iff_ne.mpr h5
    have e6 : (toAsciiLowercase s == "verify_ca") = false := beq_eq_false_iff_ne.mpr h6
    have e7 : (toAsciiLowercase s == "verify-full") = false := beq_eq_false_iff_ne.mpr h7
    have e8 : (toAsciiLowercase s == "verify-identity") = false :=
      beq_eq_false_iff_ne.mpr h8
    have e9 : (toAsciiLowercase s == "verify_full") = false := beq_eq_false_iff_ne.mpr h9
    have e10 : (toAsciiLowercase s == "verify_identity") = false :=
      beq_eq_false_iff_ne.mpr h10
    have : aliasTable.lookup (toAsciiLowercase s) = none := by
      simp [aliasTable, List.lookup, e1, e2, e3, e4, e5, e6, e7, e8, e9, e10]
    rw [this]

/-- C1: SslMode parsing matches the input case-insensitively against the
fixed alias table (disable/allow to Disable, prefer, require, the verify-ca
and verify-identity spellings), and for every string outside the table it
fails with a Configuration error whose message retains the original input
(ssl_mode.rs lines 38-56). -/
theorem ssl_mode_parse_table (s : String) :
    (∀ m : SslMode, aliasTable.lookup (toAsciiLowercase s) = some m →
      SslMode.from_str s = Except.ok m) ∧
    (aliasTable.lookup (toAsciiLowercase s) = none →
      SslMode.from_str s = Except.error (SslModeError.Configuration (cfgMsg s)) ∧
      recoverInput (cfgMsg s) = some s) := by
  constructor
  · intro m hm
    rw [from_str_eq_lookup s, hm]
  · intro hn
    rw [from_str_eq_lookup s, hn]
    exact ⟨rfl, recover_cfgMsg s⟩

/-- Witness for C1: a string outside the table fails with the retained
message, and a mixed-case alias parses to its documented value. -/
theorem ssl_mode_parse_table_witness :
    (SslMode.from_str "sslbogus"
        = Except.error (SslModeError.Configuration (cfgMsg "sslbogus")) ∧
      recoverInput (cfgMsg "sslbogus") = some "sslbogus") ∧
    SslMode.from_str "Verify-Full" = Except.ok SslMode.VerifyIdentity :=
  ⟨(ssl_mode_parse_table "sslbogus").2 (by decide),
   (ssl_mode_parse_table "Verify-Full").1 SslMode.VerifyIdentity (by decide)⟩

end Sqlx
